import Mathlib

/-!
Verification of the anonymous-telegram-bot core against its specification.

The development shallowly embeds the repository's Python modules:
* `bot/services/queue_manager.py` — the pending-request queue (`QueueManager`),
  whose internal `dict` keyed by `(chat_id, user_id)` is modelled as an
  association list with no duplicate keys, and whose `datetime` values are
  modelled as natural-number timestamps;
* `bot/utils/helpers.py` — the pure helpers (classifier, truthiness checks,
  text extraction after the command marker);
* `bot/services/message_processor.py` — the repost router, modelled as a pure
  function producing the transport call it would issue;
* `bot/handlers/message_handler.py` — the two orchestrator handlers, modelled
  as pure state transformers over the queue with the delete outcome supplied
  as an input.
-/

namespace AnonBot

/-! ## Queue manager (`bot/services/queue_manager.py`)

The Python `QueueManager` stores entries in `self._queue`, a `dict` mapping
the composite key `(chat_id, user_id)` to a `QueueEntry`.  We model the dict
as an association list together with the invariant `QNodup` (no duplicate
keys), which every reachable state satisfies because all mutation goes
through the dict-like operations below.  `datetime` instants become `Nat`
timestamps; `a > b` on datetimes becomes `b < a` on `Nat`. -/

/-- Embeds the Python `QueueEntry` dataclass (`queue_manager.py`, lines 18-32). -/
structure QueueEntry where
  user_id : Int
  chat_id : Int
  expires_at : Nat
  reply_to_message_id : Option Int
deriving DecidableEq, Repr

/-- The composite key `(chat_id, user_id)` used by the Python dict. -/
abbrev QKey := Int × Int

/-- The queue state: the Python `self._queue` dict as an association list. -/
abbrev QState := List (QKey × QueueEntry)

/-- Python `dict.get(key)`: first (and under `QNodup`, only) binding. -/
def dictGet : QState → QKey → Option QueueEntry
  | [], _ => none
  | (k', v) :: rest, k => if k' = k then some v else dictGet rest k

/-- Python `dict[key] = value`: replace the binding in place or append. -/
def dictInsert : QState → QKey → QueueEntry → QState
  | [], k, v => [(k, v)]
  | (k', v') :: rest, k, v =>
      if k' = k then (k, v) :: rest else (k', v') :: dictInsert rest k v

/-- Python `dict.pop(key, None)` / `del dict[key]`: drop the binding. -/
def dictErase : QState → QKey → QState
  | [], _ => []
  | (k', v') :: rest, k => if k' = k then rest else (k', v') :: dictErase rest k

/-- The dict invariant: association-list keys are pairwise distinct. -/
def QNodup (q : QState) : Prop := (q.map Prod.fst).Nodup

instance : DecidablePred QNodup := fun q =>
  inferInstanceAs (Decidable (q.map Prod.fst).Nodup)

theorem dictGet_dictInsert_self (q : QState) (k : QKey) (v : QueueEntry) :
    dictGet (dictInsert q k v) k = some v := by
  induction q with
  | nil => simp [dictInsert, dictGet]
  | cons hd tl ih =>
      obtain ⟨k', v'⟩ := hd
      by_cases h : k' = k
      · simp [dictInsert, dictGet, h]
      · simp [dictInsert, dictGet, h, ih]

theorem dictGet_dictInsert_ne (q : QState) (k k2 : QKey) (v : QueueEntry)
    (h : k ≠ k2) : dictGet (dictInsert q k v) k2 = dictGet q k2 := by
  induction q with
  | nil => simp [dictInsert, dictGet, h]
  | cons hd tl ih =>
      obtain ⟨k', v'⟩ := hd
      by_cases hk : k' = k
      · subst hk
        simp [dictInsert, dictGet, h]
      · simp only [dictInsert, if_neg hk]
        by_cases hk2 : k' = k2
        · simp [dictGet, hk2]
        · simp [dictGet, hk2, ih]

theorem dictErase_sublist (q : QState) (k : QKey) : (dictErase q k).Sublist q := by
  induction q with
  | nil => simp [dictErase]
  | cons hd tl ih =>
      obtain ⟨k', v'⟩ := hd
      by_cases h : k' = k
      · simp [dictErase, h]
      · simpa [dictErase, h] using List.Sublist.cons₂ (k', v') ih

theorem QNodup_dictErase {q : QState} (hq : QNodup q) (k : QKey) :
    QNodup (dictErase q k) :=
  List.Nodup.sublist (List.Sublist.map Prod.fst (dictErase_sublist q k)) hq

theorem QNodup_cons {k : QKey} {v : QueueEntry} {tl : QState}
    (h : QNodup ((k, v) :: tl)) : k ∉ tl.map Prod.fst ∧ QNodup tl := by
  have h2 : (k :: tl.map Prod.fst).Nodup := by simpa [QNodup] using h
  exact List.nodup_cons.mp h2

theorem dictGet_eq_none_of_not_mem {q : QState} {k : QKey}
    (h : k ∉ q.map Prod.fst) : dictGet q k = none := by
  induction q with
  | nil => simp [dictGet]
  | cons hd tl ih =>
      obtain ⟨k', v'⟩ := hd
      simp only [List.map_cons, List.mem_cons] at h
      push_neg at h
      simp [dictGet, Ne.symm h.1, ih h.2]

theorem dictGet_dictErase_self {q : QState} (hq : QNodup q) (k : QKey) :
    dictGet (dictErase q k) k = none := by
  induction q with
  | nil => simp [dictErase, dictGet]
  | cons hd tl ih =>
      obtain ⟨k', v'⟩ := hd
      obtain ⟨hnotin, htl⟩ := QNodup_cons hq
      by_cases h : k' = k
      · subst h
        simpa [dictErase] using dictGet_eq_none_of_not_mem hnotin
      · simp [dictErase, dictGet, h, ih htl]

theorem dictGet_dictErase_ne (q : QState) (k k2 : QKey) (h : k ≠ k2) :
    dictGet (dictErase q k) k2 = dictGet q k2 := by
  induction q with
  | nil => simp [dictErase]
  | cons hd tl ih =>
      obtain ⟨k', v'⟩ := hd
      by_cases hk : k' = k
      · subst hk
        simp [dictErase, dictGet, h]
      · by_cases hk2 : k' = k2
        · subst hk2
          simp [dictErase, dictGet, hk]
        · simp [dictErase, dictGet, hk, hk2, ih]

theorem dictInsert_keys_mem (q : QState) (k : QKey) (v : QueueEntry) :
    ∀ k2 ∈ (dictInsert q k v).map Prod.fst, k2 = k ∨ k2 ∈ q.map Prod.fst := by
  induction q with
  | nil => simp [dictInsert]
  | cons hd tl ih =>
      obtain ⟨k', v'⟩ := hd
      by_cases h : k' = k
      · subst h
        simp [dictInsert]
      · intro k2 hk2
        simp only [dictInsert, if_neg h, List.map_cons, List.mem_cons] at hk2
        rcases hk2 with hk2 | hk2
        · right; simp [hk2]
        · rcases ih k2 hk2 with h2 | h2
          · left; exact h2
          · right; simp [h2]

theorem QNodup_dictInsert {q : QState} (hq : QNodup q) (k : QKey) (v : QueueEntry) :
    QNodup (dictInsert q k v) := by
  induction q with
  | nil => simp [dictInsert, QNodup]
  | cons hd tl ih =>
      obtain ⟨k', v'⟩ := hd
      obtain ⟨hnotin, htl⟩ := QNodup_cons hq
      by_cases h : k' = k
      · subst h
        simp only [dictInsert, if_pos rfl, QNodup, List.map_cons]
        exact List.nodup_cons.mpr ⟨by simpa [QNodup] using hnotin, by simpa [QNodup] using htl⟩
      · simp only [dictInsert, if_neg h, QNodup, List.map_cons]
        refine List.nodup_cons.mpr ⟨?_, by simpa [QNodup] using ih htl⟩
        intro hmem
        rcases dictInsert_keys_mem tl k v k' hmem with h2 | h2
        · exact h h2
        · exact hnotin h2

theorem countP_key_le_one {q : QState} (hq : QNodup q) (k : QKey) :
    q.countP (fun kv => decide (kv.1 = k)) ≤ 1 := by
  induction q with
  | nil => simp
  | cons hd tl ih =>
      obtain ⟨k', v'⟩ := hd
      obtain ⟨hnotin, htl⟩ := QNodup_cons hq
      by_cases h : k' = k
      · subst h
        have hzero : tl.countP (fun kv => decide (kv.1 = k')) = 0 := by
          rw [List.countP_eq_zero]
          intro kv hkv
          simp only [decide_eq_true_eq]
          intro hk
          exact hnotin (List.mem_map.mpr ⟨kv, hkv, hk⟩)
        simp [List.countP_cons, hzero]
      · simpa [List.countP_cons, h] using ih htl

theorem dictGet_mem {q : QState} {k : QKey} {e : QueueEntry}
    (h : dictGet q k = some e) : (k, e) ∈ q := by
  induction q with
  | nil => simp [dictGet] at h
  | cons hd tl ih =>
      obtain ⟨k', v'⟩ := hd
      by_cases hk : k' = k
      · subst hk
        have h2 : v' = e := by simpa [dictGet] using h
        subst h2
        exact List.mem_cons_self _ _
      · simp only [dictGet, if_neg hk] at h
        exact List.mem_cons_of_mem _ (ih h)

theorem mem_dictGet {q : QState} (hq : QNodup q) {k : QKey} {e : QueueEntry}
    (h : (k, e) ∈ q) : dictGet q k = some e := by
  induction q with
  | nil => simp at h
  | cons hd tl ih =>
      obtain ⟨k', v'⟩ := hd
      obtain ⟨hnotin, htl⟩ := QNodup_cons hq
      rcases List.mem_cons.mp h with h1 | h1
      · rw [Prod.mk.injEq] at h1
        obtain ⟨h1a, h1b⟩ := h1
        subst h1a; subst h1b
        simp [dictGet]
      · have hk : k' ≠ k := by
          intro hkk
          subst hkk
          exact hnotin (List.mem_map.mpr ⟨(k', e), h1, rfl⟩)
        simp [dictGet, hk, ih htl h1]

namespace QueueManager

/-- Embeds `QueueManager.add` (`queue_manager.py`, lines 75-106): computes
`expires_at = now + timeout` and unconditionally stores the entry under the
key `(chat_id, user_id)`. -/
def add (timeout : Nat) (q : QState) (user_id chat_id : Int)
    (reply_to_message_id : Option Int) (now : Nat) : QState :=
  dictInsert q (chat_id, user_id)
    ⟨user_id, chat_id, now + timeout, reply_to_message_id⟩

/-- Embeds `QueueManager.pop` (`queue_manager.py`, lines 108-128): removes the
binding via `dict.pop(key, None)` and returns the entry only when
`entry.expires_at > now`.  The returned pair is (result, new queue state). -/
def pop (q : QState) (user_id chat_id : Int) (now : Nat) :
    Option QueueEntry × QState :=
  let entry := dictGet q (chat_id, user_id)
  let q' := dictErase q (chat_id, user_id)
  match entry with
  | some e => (if now < e.expires_at then some e else none, q')
  | none => (none, q')

/-- Embeds `QueueManager.check` (`queue_manager.py`, lines 130-146): a pure
read returning `entry is not None and entry.expires_at > now`.  It takes the
state and returns only a `Bool`, mirroring that the Python code never mutates
the dict here. -/
def check (q : QState) (user_id chat_id : Int) (now : Nat) : Bool :=
  match dictGet q (chat_id, user_id) with
  | some e => decide (now < e.expires_at)
  | none => false

/-- Embeds `QueueManager._cleanup_expired` (`queue_manager.py`, lines 164-178):
collects every key whose entry has `expires_at <= now` and deletes those keys.
Under `QNodup`, deleting exactly those keys is filtering on the entries. -/
def cleanup_expired (q : QState) (now : Nat) : QState :=
  q.filter (fun kv => !decide (kv.2.expires_at ≤ now))

theorem QNodup_cleanup_expired {q : QState} (hq : QNodup q) (now : Nat) :
    QNodup (cleanup_expired q now) :=
  List.Nodup.sublist (List.Sublist.map Prod.fst (List.filter_sublist q)) hq

end QueueManager

/-- A concrete one-entry queue state used by the witnesses below. -/
def qW : QState := [((1, 2), ⟨2, 1, 10, none⟩)]

/-- C1: for every key, `pop` removes whatever entry is stored (expired or
not) and returns it iff its expiry is still strictly in the future at
removal time; consequently a second `pop` on the same key returns nothing. -/
theorem pop_removes_and_returns_iff_live (q : QState) (hq : QNodup q)
    (u c : Int) (now now2 : Nat) :
    (∀ e, (QueueManager.pop q u c now).1 = some e ↔
        (dictGet q (c, u) = some e ∧ now < e.expires_at)) ∧
    dictGet (QueueManager.pop q u c now).2 (c, u) = none ∧
    (QueueManager.pop (QueueManager.pop q u c now).2 u c now2).1 = none := by
  have herase : (QueueManager.pop q u c now).2 = dictErase q (c, u) := by
    cases hget : dictGet q (c, u) with
    | none => simp [QueueManager.pop, hget]
    | some e0 => simp [QueueManager.pop, hget]
  have h2 : dictGet (QueueManager.pop q u c now).2 (c, u) = none := by
    rw [herase]
    exact dictGet_dictErase_self hq (c, u)
  refine ⟨?_, h2, ?_⟩
  · intro e
    cases hget : dictGet q (c, u) with
    | none => simp [QueueManager.pop, hget]
    | some e0 =>
        by_cases hlt : now < e0.expires_at
        · simp only [QueueManager.pop, hget, if_pos hlt, Option.some.injEq]
          constructor
          · rintro rfl
            exact ⟨rfl, hlt⟩
          · rintro ⟨rfl, _⟩
            rfl
        · simp only [QueueManager.pop, hget, if_neg hlt]
          constructor
          · intro hfalse
            exact absurd hfalse (by simp)
          · rintro ⟨he, hl⟩
            rw [Option.some.injEq] at he
            subst he
            exact absurd hl hlt
  · have h3 : dictGet (dictErase q (c, u)) (c, u) = none :=
      dictGet_dictErase_self hq (c, u)
    rw [herase]
    simp [QueueManager.pop, h3]

/-- Closed instance of C1's theorem at a concrete queue state. -/
theorem pop_removes_and_returns_iff_live_witness :
    QNodup qW ∧
    ((∀ e, (QueueManager.pop qW 2 1 5).1 = some e ↔
        (dictGet qW (1, 2) = some e ∧ 5 < e.expires_at)) ∧
     dictGet (QueueManager.pop qW 2 1 5).2 (1, 2) = none ∧
     (QueueManager.pop (QueueManager.pop qW 2 1 5).2 2 1 7).1 = none) :=
  ⟨by decide, pop_removes_and_returns_iff_live qW (by decide) 2 1 5 7⟩

/-- C2: `add` always succeeds, stores exactly one entry for the key with
expiry `now + timeout`, leaves other keys untouched, preserves the
no-duplicate-keys invariant (so at most one entry per key), and a second
`add` for the same key makes only the second entry observable. -/
theorem add_overwrites_single_entry (timeout : Nat) (q : QState) (hq : QNodup q)
    (u c : Int) (r : Option Int) (now : Nat) :
    dictGet (QueueManager.add timeout q u c r now) (c, u) =
      some ⟨u, c, now + timeout, r⟩ ∧
    (∀ k, k ≠ (c, u) →
      dictGet (QueueManager.add timeout q u c r now) k = dictGet q k) ∧
    QNodup (QueueManager.add timeout q u c r now) ∧
    (∀ k, (QueueManager.add timeout q u c r now).countP
        (fun kv => decide (kv.1 = k)) ≤ 1) ∧
    (∀ (timeout2 : Nat) (r2 : Option Int) (now2 : Nat),
      dictGet (QueueManager.add timeout2
          (QueueManager.add timeout q u c r now) u c r2 now2) (c, u) =
        some ⟨u, c, now2 + timeout2, r2⟩) := by
  refine ⟨dictGet_dictInsert_self q _ _, ?_, QNodup_dictInsert hq _ _, ?_, ?_⟩
  · intro k hk
    exact dictGet_dictInsert_ne q (c, u) k _ (Ne.symm hk)
  · intro k
    exact countP_key_le_one (QNodup_dictInsert hq _ _) k
  · intro timeout2 r2 now2
    exact dictGet_dictInsert_self _ _ _

/-- Closed instance of C2's theorem at a concrete queue state. -/
theorem add_overwrites_single_entry_witness :
    QNodup qW ∧
    (dictGet (QueueManager.add 60 qW 4 3 (some 9) 100) (3, 4) =
      some ⟨4, 3, 100 + 60, some 9⟩ ∧
    (∀ k, k ≠ (3, 4) →
      dictGet (QueueManager.add 60 qW 4 3 (some 9) 100) k = dictGet qW k) ∧
    QNodup (QueueManager.add 60 qW 4 3 (some 9) 100) ∧
    (∀ k, (QueueManager.add 60 qW 4 3 (some 9) 100).countP
        (fun kv => decide (kv.1 = k)) ≤ 1) ∧
    (∀ (timeout2 : Nat) (r2 : Option Int) (now2 : Nat),
      dictGet (QueueManager.add timeout2
          (QueueManager.add 60 qW 4 3 (some 9) 100) 4 3 r2 now2) (3, 4) =
        some ⟨4, 3, now2 + timeout2, r2⟩)) :=
  ⟨by decide, add_overwrites_single_entry 60 qW (by decide) 4 3 (some 9) 100⟩

/-- C3: `check` is true iff an entry exists for the key with expiry strictly
in the future, and after `add` it is true exactly at the instants before the
freshly computed expiry.  `check` returns only a `Bool` and never produces a
new queue state, mirroring that the Python method never mutates the dict. -/
theorem check_true_iff_live (q : QState) (u c : Int) (now : Nat) :
    (QueueManager.check q u c now = true ↔
      ∃ e, dictGet q (c, u) = some e ∧ now < e.expires_at) ∧
    (∀ (timeout : Nat) (r : Option Int) (t0 now1 : Nat),
      QueueManager.check (QueueManager.add timeout q u c r t0) u c now1 =
        decide (now1 < t0 + timeout)) := by
  constructor
  · cases hget : dictGet q (c, u) with
    | none => simp [QueueManager.check, hget]
    | some e0 => simp [QueueManager.check, hget]
  · intro timeout r t0 now1
    have h := dictGet_dictInsert_self q (c, u)
      (⟨u, c, t0 + timeout, r⟩ : QueueEntry)
    simp [QueueManager.check, QueueManager.add, h]

/-- C4: one run of the cleanup sweep keeps exactly the live entries: an entry
survives the sweep iff it was present and its expiry is still strictly in the
future at sweep time. -/
theorem cleanup_removes_exactly_expired (q : QState) (hq : QNodup q) (now : Nat) :
    ∀ k e, dictGet (QueueManager.cleanup_expired q now) k = some e ↔
      (dictGet q k = some e ∧ now < e.expires_at) := by
  intro k e
  constructor
  · intro h
    have hmem := dictGet_mem h
    rw [QueueManager.cleanup_expired, List.mem_filter] at hmem
    obtain ⟨hmem, hcond⟩ := hmem
    have hle : ¬ e.expires_at ≤ now := by simpa using hcond
    exact ⟨mem_dictGet hq hmem, Nat.not_le.mp hle⟩
  · rintro ⟨h1, h2⟩
    have hmem : (k, e) ∈ QueueManager.cleanup_expired q now := by
      rw [QueueManager.cleanup_expired, List.mem_filter]
      exact ⟨dictGet_mem h1, by simpa [Nat.not_le] using h2⟩
    exact mem_dictGet (QueueManager.QNodup_cleanup_expired hq now) hmem

/-- Closed instance of C4's theorem at a concrete queue state. -/
theorem cleanup_removes_exactly_expired_witness :
    QNodup qW ∧
    (∀ k e, dictGet (QueueManager.cleanup_expired qW 10) k = some e ↔
      (dictGet qW k = some e ∧ 10 < e.expires_at)) :=
  ⟨by decide, cleanup_removes_exactly_expired qW (by decide) 10⟩

/-! ## Inbound events and helpers (`bot/utils/helpers.py`)

An aiogram `Message` is modelled by the fields the handlers read.  Media
objects are represented by their `file_id` string; `photo` is the list of
`PhotoSize` file ids (the code sends `message.photo[-1]`);
`reply_to_message_id` stands for `message.reply_to_message.message_id` when
the event is a reply.  Python truthiness is modelled per field type:
`None`/`""` are falsy for strings, `None`/`[]` for lists, and a present
media object is always truthy. -/

/-- The inbound event fields read by the handlers. -/
structure Message where
  text : Option String := none
  caption : Option String := none
  photo : Option (List String) := none
  video : Option String := none
  animation : Option String := none
  document : Option String := none
  audio : Option String := none
  voice : Option String := none
  video_note : Option String := none
  sticker : Option String := none
  chat_id : Int := 0
  from_user_id : Int := 0
  reply_to_message_id : Option Int := none
deriving DecidableEq, Repr

/-- Python truthiness of an optional string (`None` and `""` are falsy). -/
def txtTruthy : Option String → Bool
  | none => false
  | some s => !s.isEmpty

/-- Python truthiness of an optional list (`None` and `[]` are falsy). -/
def lstTruthy : Option (List String) → Bool
  | none => false
  | some l => !l.isEmpty

/-- Python truthiness of an optional media object (any object is truthy). -/
def objTruthy (o : Option String) : Bool := o.isSome

/-- Python `a or b` on optional strings: `a` when truthy, else `b` as-is. -/
def pyOrStr (a b : Option String) : Option String :=
  if txtTruthy a then a else b

/-- Python `a or d` coalescing an optional string into a string default. -/
def pyOrStrD (a : Option String) (d : String) : String :=
  match a with
  | some s => if s.isEmpty then d else s
  | none => d

/-- Python `a or b` on optional message ids (`None` and `0` are falsy). -/
def pyOrOptInt (a b : Option Int) : Option Int :=
  match a with
  | some n => if n = 0 then b else some n
  | none => b

/-- The content-kind tags returned by `get_message_type`. -/
inductive Kind where
  | text
  | photo
  | video
  | animation
  | document
  | audio
  | voice
  | video_note
  | sticker
  | unknown
deriving DecidableEq, Repr

/-- Embeds `get_message_type` (`helpers.py`, lines 90-119): the if/elif
chain over the message fields, in source order. -/
def get_message_type (m : Message) : Kind :=
  if txtTruthy m.text then .text
  else if lstTruthy m.photo then .photo
  else if objTruthy m.video then .video
  else if objTruthy m.animation then .animation
  else if objTruthy m.document then .document
  else if objTruthy m.audio then .audio
  else if objTruthy m.voice then .voice
  else if objTruthy m.video_note then .video_note
  else if objTruthy m.sticker then .sticker
  else .unknown

/-- Embeds `is_media_with_caption` (`helpers.py`, lines 44-64):
`any((photo, video, animation, document, audio))`. -/
def is_media_with_caption (m : Message) : Bool :=
  lstTruthy m.photo || objTruthy m.video || objTruthy m.animation ||
    objTruthy m.document || objTruthy m.audio

/-- Embeds `has_any_content` (`helpers.py`, lines 67-87). -/
def has_any_content (m : Message) : Bool :=
  txtTruthy m.text || lstTruthy m.photo || objTruthy m.video ||
    objTruthy m.animation || objTruthy m.document || objTruthy m.audio ||
    objTruthy m.voice || objTruthy m.video_note || objTruthy m.sticker

/-- Python whitespace stripped by `str.strip()` (ASCII subset). -/
def pyWhitespace (c : Char) : Bool :=
  c = ' ' || c = '\t' || c = '\n' || c = '\x0d' || c = '\x0b' || c = '\x0c'

/-- `str.strip()`: drop leading and trailing whitespace. -/
def pyStrip (s : List Char) : List Char :=
  ((s.dropWhile pyWhitespace).reverse.dropWhile pyWhitespace).reverse

/-- `re.compile(re.escape(pat), re.IGNORECASE).sub("", s, count=1)`: remove
the first case-insensitive occurrence of the literal `pat` from `s`. -/
def ciRemoveFirst (pat : List Char) (s : List Char) : List Char :=
  match s with
  | [] => []
  | c :: rest =>
      if ((c :: rest).take pat.length).map Char.toLower = pat.map Char.toLower
      then (c :: rest).drop pat.length
      else c :: ciRemoveFirst pat rest

/-- Embeds `extract_text_after_prefix` (`helpers.py`, lines 12-41): returns
`None` for empty input, removes the first case-insensitive occurrence of the
command marker, strips whitespace, and returns `None` if nothing remains. -/
def extract_text_after_marker (text : Option String) (pfx : String) :
    Option String :=
  match text with
  | none => none
  | some t =>
      if t.isEmpty then none
      else
        let cleaned := String.mk (pyStrip (ciRemoveFirst pfx.toList t.toList))
        if cleaned.isEmpty then none else some cleaned

/-! ## Repost router (`bot/services/message_processor.py`) -/

/-- The transport send operations invoked by `MessageProcessor`. -/
inductive SendMethod where
  | sendMessage
  | sendPhoto
  | sendVideo
  | sendAnimation
  | sendDocument
  | sendAudio
  | sendVoice
  | sendVideoNote
  | sendSticker
deriving DecidableEq, Repr

/-- One transport send call as issued by `MessageProcessor`.  `caption =
none` means the call carries no caption argument: the `send_voice`,
`send_video_note` and `send_sticker` calls in the source never pass one. -/
structure TransportCall where
  method : SendMethod
  chat_id : Int
  payload : String
  caption : Option String
  reply_to : Option Int
deriving DecidableEq, Repr

/-- Embeds `MessageProcessor.send_anonymous` (`message_processor.py`, lines
50-108) together with its `_send_*` helpers (lines 152-275): computes the
effective reply target (`reply_to_message_id or` the message's own reply),
classifies the message, and produces the transport call the dispatch table
issues; `none` for the unsupported `unknown` kind. -/
def send_anonymous (m : Message) (text : Option String)
    (reply_to_message_id : Option Int) : Option TransportCall :=
  let reply_to := pyOrOptInt reply_to_message_id m.reply_to_message_id
  match get_message_type m with
  | .text => some ⟨.sendMessage, m.chat_id,
      pyOrStrD (pyOrStr text m.text) "", none, reply_to⟩
  | .photo => some ⟨.sendPhoto, m.chat_id,
      (m.photo.getD []).getLast?.getD "", text, reply_to⟩
  | .video => some ⟨.sendVideo, m.chat_id, m.video.getD "", text, reply_to⟩
  | .animation => some ⟨.sendAnimation, m.chat_id,
      m.animation.getD "", text, reply_to⟩
  | .document => some ⟨.sendDocument, m.chat_id,
      m.document.getD "", text, reply_to⟩
  | .audio => some ⟨.sendAudio, m.chat_id, m.audio.getD "", text, reply_to⟩
  | .voice => some ⟨.sendVoice, m.chat_id, m.voice.getD "", none, reply_to⟩
  | .video_note => some ⟨.sendVideoNote, m.chat_id,
      m.video_note.getD "", none, reply_to⟩
  | .sticker => some ⟨.sendSticker, m.chat_id,
      m.sticker.getD "", none, reply_to⟩
  | .unknown => none

/-- Outcome classes of the transport delete call, as distinguished by the
exception handlers of `MessageProcessor.delete_original`. -/
inductive DeleteResult where
  | success
  | forbidden
  | notFound
  | tooOld
  | otherError
deriving DecidableEq, Repr

/-- Embeds `MessageProcessor.delete_original` (`message_processor.py`, lines
110-146): whether the deletion counts as successful, paired with the
error-notice key sent to the chat (`none` when no notice is sent). -/
def delete_original (error_notifications : Bool) (r : DeleteResult) :
    Bool × Option String :=
  match r with
  | .success => (true, none)
  | .forbidden =>
      (false, if error_notifications then some "delete_failed" else none)
  | .notFound => (true, none)
  | .tooOld => (false, if error_notifications then some "too_old" else none)
  | .otherError => (false, none)

/-! ## Orchestrator handlers (`bot/handlers/message_handler.py`)

Each handler is modelled as a pure state transformer: given the configured
command marker, the notification toggle, the inbound message, the queue
state, the current instant and the outcome the transport would report for
the delete call, it yields the new queue state, the send call made (if any)
and the notices emitted. -/

/-- The observable outcome of one handler invocation. -/
structure HandlerResult where
  queue : QState
  sent : Option TransportCall
  notices : List String
deriving DecidableEq, Repr

/-- `message.text or message.caption or ""` (`message_handler.py`, line 108). -/
def eventText (m : Message) : String := pyOrStrD (pyOrStr m.text m.caption) ""

/-- The `cleaned_text` of `handle_anon_command` (line 109). -/
def anonCleanedText (pfx : String) (m : Message) : Option String :=
  extract_text_after_marker (some (eventText m)) pfx

/-- The `has_text or has_media` condition of `handle_anon_command`
(lines 112-117). -/
def anonHasPayload (pfx : String) (m : Message) : Bool :=
  (anonCleanedText pfx m).isSome ||
    (is_media_with_caption m ||
      (objTruthy m.voice || objTruthy m.video_note || objTruthy m.sticker))

/-- Embeds `handle_anon_command` (`message_handler.py`, lines 89-150): with a
payload, direct mode deletes first and aborts when deletion fails; without a
payload, queue mode deletes (ignoring the outcome) and registers the entry. -/
def handle_anon_command (pfx : String) (error_notifications : Bool)
    (timeout : Nat) (m : Message) (q : QState) (now : Nat)
    (del : DeleteResult) : HandlerResult :=
  if anonHasPayload pfx m then
    let d := delete_original error_notifications del
    if !d.1 then ⟨q, none, d.2.toList⟩
    else ⟨q, send_anonymous m (anonCleanedText pfx m) none, d.2.toList⟩
  else
    let d := delete_original error_notifications del
    ⟨QueueManager.add timeout q m.from_user_id m.chat_id
        m.reply_to_message_id now,
      none, d.2.toList⟩

/-- `str.lower()` over the characters of a string. -/
def lowerList (s : List Char) : List Char := s.map Char.toLower

/-- `str.startswith(pat)`. -/
def startsWithList (s pat : List Char) : Bool :=
  decide (s.take pat.length = pat)

/-- The guard of `handle_queued_message` (lines 176-180): the follow-up's
text or caption, lower-cased, starts with the lower-cased command marker. -/
def queuedIsAnonCommand (pfx : String) (m : Message) : Bool :=
  startsWithList (lowerList (eventText m).toList) (lowerList pfx.toList)

/-- Embeds `handle_queued_message` (`message_handler.py`, lines 161-207):
skips command-like or content-less follow-ups, pops the entry (consuming it
whether live or expired), and only when a live entry was returned deletes
the follow-up and, if deletion succeeded, reposts the follow-up's own
text/caption with the entry's stored reply target. -/
def handle_queued_message (pfx : String) (error_notifications : Bool)
    (m : Message) (q : QState) (now : Nat) (del : DeleteResult) :
    HandlerResult :=
  if queuedIsAnonCommand pfx m then ⟨q, none, []⟩
  else if !has_any_content m then ⟨q, none, []⟩
  else
    let pr := QueueManager.pop q m.from_user_id m.chat_id now
    match pr.1 with
    | none => ⟨pr.2, none, []⟩
    | some e =>
        let d := delete_original error_notifications del
        if !d.1 then ⟨pr.2, none, d.2.toList⟩
        else ⟨pr.2,
          send_anonymous m (pyOrStr m.text m.caption) e.reply_to_message_id,
          d.2.toList⟩

/-! ## Claims about the classifier, router and handlers -/

/-- C5: the classifier assigns exactly one kind to every content unit,
following the precedence text > photo > video > animation > document >
audio > voice > video_note > sticker, and yields `unknown` exactly when
none of the recognized fields is present. -/
theorem classifier_total_exclusive_precedence (m : Message) :
    (get_message_type m = .text ↔ txtTruthy m.text = true) ∧
    (get_message_type m = .photo ↔
      (txtTruthy m.text = false ∧ lstTruthy m.photo = true)) ∧
    (get_message_type m = .video ↔
      (txtTruthy m.text = false ∧ lstTruthy m.photo = false ∧
        objTruthy m.video = true)) ∧
    (get_message_type m = .animation ↔
      (txtTruthy m.text = false ∧ lstTruthy m.photo = false ∧
        objTruthy m.video = false ∧ objTruthy m.animation = true)) ∧
    (get_message_type m = .document ↔
      (txtTruthy m.text = false ∧ lstTruthy m.photo = false ∧
        objTruthy m.video = false ∧ objTruthy m.animation = false ∧
        objTruthy m.document = true)) ∧
    (get_message_type m = .audio ↔
      (txtTruthy m.text = false ∧ lstTruthy m.photo = false ∧
        objTruthy m.video = false ∧ objTruthy m.animation = false ∧
        objTruthy m.document = false ∧ objTruthy m.audio = true)) ∧
    (get_message_type m = .voice ↔
      (txtTruthy m.text = false ∧ lstTruthy m.photo = false ∧
        objTruthy m.video = false ∧ objTruthy m.animation = false ∧
        objTruthy m.document = false ∧ objTruthy m.audio = false ∧
        objTruthy m.voice = true)) ∧
    (get_message_type m = .video_note ↔
      (txtTruthy m.text = false ∧ lstTruthy m.photo = false ∧
        objTruthy m.video = false ∧ objTruthy m.animation = false ∧
        objTruthy m.document = false ∧ objTruthy m.audio = false ∧
        objTruthy m.voice = false ∧ objTruthy m.video_note = true)) ∧
    (get_message_type m = .sticker ↔
      (txtTruthy m.text = false ∧ lstTruthy m.photo = false ∧
        objTruthy m.video = false ∧ objTruthy m.animation = false ∧
        objTruthy m.document = false ∧ objTruthy m.audio = false ∧
        objTruthy m.voice = false ∧ objTruthy m.video_note = false ∧
        objTruthy m.sticker = true)) ∧
    (get_message_type m = .unknown ↔
      (txtTruthy m.text = false ∧ lstTruthy m.photo = false ∧
        objTruthy m.video = false ∧ objTruthy m.animation = false ∧
        objTruthy m.document = false ∧ objTruthy m.audio = false ∧
        objTruthy m.voice = false ∧ objTruthy m.video_note = false ∧
        objTruthy m.sticker = false)) := by
  unfold get_message_type
  split_ifs <;> simp_all

/-- C6: for voice, video_note and sticker content, the router's transport
call carries no caption argument, whatever override text is supplied. -/
theorem caption_incapable_ignores_override (m : Message) (t : Option String)
    (rt : Option Int)
    (h : get_message_type m = .voice ∨ get_message_type m = .video_note ∨
      get_message_type m = .sticker) :
    ∃ call, send_anonymous m t rt = some call ∧ call.caption = none := by
  rcases h with h | h | h
  · exact ⟨⟨.sendVoice, m.chat_id, m.voice.getD "", none,
      pyOrOptInt rt m.reply_to_message_id⟩, by simp [send_anonymous, h], rfl⟩
  · exact ⟨⟨.sendVideoNote, m.chat_id, m.video_note.getD "", none,
      pyOrOptInt rt m.reply_to_message_id⟩, by simp [send_anonymous, h], rfl⟩
  · exact ⟨⟨.sendSticker, m.chat_id, m.sticker.getD "", none,
      pyOrOptInt rt m.reply_to_message_id⟩, by simp [send_anonymous, h], rfl⟩

/-- A concrete voice message used by C6's witness. -/
def mVoice : Message :=
  { voice := some "v1", caption := some "cap", chat_id := 5, from_user_id := 6 }

/-- Closed instance of C6's theorem: a voice message with a non-empty
override text still produces a call with no caption. -/
theorem caption_incapable_ignores_override_witness :
    (get_message_type mVoice = .voice ∨ get_message_type mVoice = .video_note ∨
      get_message_type mVoice = .sticker) ∧
    ∃ call, send_anonymous mVoice (some "override") (some 3) = some call ∧
      call.caption = none :=
  ⟨by decide,
    caption_incapable_ignores_override mVoice (some "override") (some 3)
      (by decide)⟩

/-- C9: a "message to delete not found" outcome is treated as success: the
delete reports true and no error notice is emitted, with or without
notifications enabled. -/
theorem delete_not_found_is_success :
    ∀ errNotif : Bool,
      delete_original errNotif DeleteResult.notFound = (true, none) := by
  intro errNotif
  rfl

/-- C7: in direct mode, when deleting the original fails, the handler
returns without routing: no anonymized copy is sent and the queue is left
untouched. -/
theorem direct_mode_delete_failure_blocks_repost (pfx : String)
    (errNotif : Bool) (timeout : Nat) (m : Message) (q : QState) (now : Nat)
    (del : DeleteResult)
    (hpay : anonHasPayload pfx m = true)
    (hdel : (delete_original errNotif del).1 = false) :
    (handle_anon_command pfx errNotif timeout m q now del).sent = none ∧
    (handle_anon_command pfx errNotif timeout m q now del).queue = q := by
  simp [handle_anon_command, hpay, hdel]

/-- A concrete direct-mode command message used by C7's witness. -/
def mDirect : Message :=
  { text := some "@anon hello", chat_id := 1, from_user_id := 2 }

/-- Closed instance of C7's theorem: a forbidden delete blocks the repost. -/
theorem direct_mode_delete_failure_blocks_repost_witness :
    (anonHasPayload "@anon" mDirect = true ∧
      (delete_original true DeleteResult.forbidden).1 = false) ∧
    ((handle_anon_command "@anon" true 60 mDirect qW 0
        DeleteResult.forbidden).sent = none ∧
      (handle_anon_command "@anon" true 60 mDirect qW 0
        DeleteResult.forbidden).queue = qW) :=
  ⟨⟨by decide, rfl⟩,
    direct_mode_delete_failure_blocks_repost "@anon" true 60 mDirect qW 0
      DeleteResult.forbidden (by decide) rfl⟩

/-- A concrete queued-mode photo follow-up used by C8's counterexample: the
pending entry stored no reply target, but the photo itself replies to
message 7. -/
def mC8 : Message :=
  { caption := some "ignored", photo := some ["p1"], chat_id := 1,
    from_user_id := 2, reply_to_message_id := some 7 }

/-- The queue state for C8's counterexample: one live entry for (1, 2)
whose stored reply target is absent. -/
def qC8 : QState := [((1, 2), ⟨2, 1, 100, none⟩)]

/-- C8 counterexample: the repost does not carry the popped entry's stored
reply-target (which is absent) — it threads under the photo's own reply
target, message 7. -/
theorem queued_photo_reply_target_counterexample :
    dictGet qC8 (1, 2) = some ⟨2, 1, 100, none⟩ ∧
    (⟨2, 1, 100, none⟩ : QueueEntry).reply_to_message_id = none ∧
    (handle_queued_message "@anon" true mC8 qC8 50 DeleteResult.success).sent =
      some ⟨.sendPhoto, 1, "p1", some "ignored", some 7⟩ := by
  decide

/-- C8 (amended): a live-queued, non-command photo follow-up with caption
"ignored" is popped, and after a successful delete of the original the
photo is reposted with the event's own caption "ignored" as the override;
its reply target is the popped entry's stored reply-target when that is a
non-zero id, falling back to the photo message's own reply target
otherwise. -/
theorem queued_photo_passes_caption_verbatim (pfx : String) (errNotif : Bool)
    (m : Message) (q : QState) (now : Nat) (e : QueueEntry)
    (hq : QNodup q)
    (hnotcmd : queuedIsAnonCommand pfx m = false)
    (htext : m.text = none) (hcap : m.caption = some "ignored")
    (hphoto : lstTruthy m.photo = true)
    (hlive : dictGet q (m.chat_id, m.from_user_id) = some e)
    (hexp : now < e.expires_at) :
    dictGet
      (handle_queued_message pfx errNotif m q now DeleteResult.success).queue
      (m.chat_id, m.from_user_id) = none ∧
    (handle_queued_message pfx errNotif m q now DeleteResult.success).sent =
      some ⟨.sendPhoto, m.chat_id, (m.photo.getD []).getLast?.getD "",
        some "ignored", pyOrOptInt e.reply_to_message_id
          m.reply_to_message_id⟩ := by
  have hcontent : has_any_content m = true := by
    simp [has_any_content, hphoto]
  have hpop1 : (QueueManager.pop q m.from_user_id m.chat_id now).1 = some e := by
    simp [QueueManager.pop, hlive, hexp]
  have hpop2 : (QueueManager.pop q m.from_user_id m.chat_id now).2 =
      dictErase q (m.chat_id, m.from_user_id) := by
    simp [QueueManager.pop, hlive]
  have htype : get_message_type m = .photo := by
    simp [get_message_type, htext, hphoto, txtTruthy]
  have hover : pyOrStr m.text m.caption = some "ignored" := by
    simp [pyOrStr, htext, hcap, txtTruthy]
  constructor
  · simp only [handle_queued_message, hnotcmd, hcontent]
    simp only [Bool.not_true, if_false, Bool.false_eq_true, hpop1, hpop2,
      delete_original, Bool.not_false, if_true]
    exact dictGet_dictErase_self hq _
  · simp only [handle_queued_message, hnotcmd, hcontent]
    simp only [Bool.not_true, if_false, Bool.false_eq_true, hpop1, hpop2,
      delete_original, Bool.not_false, if_true]
    simp [send_anonymous, htype, hover]

/-- Closed instance of C8's amended theorem at a concrete input. -/
theorem queued_photo_passes_caption_verbatim_witness :
    (QNodup qC8 ∧ queuedIsAnonCommand "@anon" mC8 = false ∧
      mC8.text = none ∧ mC8.caption = some "ignored" ∧
      lstTruthy mC8.photo = true ∧
      dictGet qC8 (mC8.chat_id, mC8.from_user_id) =
        some ⟨2, 1, 100, none⟩ ∧
      50 < (⟨2, 1, 100, none⟩ : QueueEntry).expires_at) ∧
    (dictGet
      (handle_queued_message "@anon" true mC8 qC8 50
        DeleteResult.success).queue (mC8.chat_id, mC8.from_user_id) = none ∧
    (handle_queued_message "@anon" true mC8 qC8 50
        DeleteResult.success).sent =
      some ⟨.sendPhoto, mC8.chat_id, (mC8.photo.getD []).getLast?.getD "",
        some "ignored",
        pyOrOptInt (⟨2, 1, 100, none⟩ : QueueEntry).reply_to_message_id
          mC8.reply_to_message_id⟩) :=
  ⟨⟨by decide, by decide, by decide, by decide, by decide, by decide,
      by decide⟩,
    queued_photo_passes_caption_verbatim "@anon" true mC8 qC8 50
      ⟨2, 1, 100, none⟩ (by decide) (by decide) (by decide) (by decide)
      (by decide) (by decide) (by decide)⟩

/-- C10: in queued mode the entry is consumed by `pop` before deletion is
attempted, so when deletion fails nothing is sent, the entry stays removed
(the queue is not restored), and any later follow-up for the same key finds
no entry and sends nothing. -/
theorem queued_delete_failure_consumes_entry (pfx : String) (errNotif : Bool)
    (m : Message) (q : QState) (now : Nat) (del : DeleteResult)
    (e : QueueEntry)
    (hq : QNodup q)
    (hnotcmd : queuedIsAnonCommand pfx m = false)
    (hcontent : has_any_content m = true)
    (hlive : dictGet q (m.chat_id, m.from_user_id) = some e)
    (hexp : now < e.expires_at)
    (hdel : (delete_original errNotif del).1 = false) :
    (handle_queued_message pfx errNotif m q now del).sent = none ∧
    dictGet (handle_queued_message pfx errNotif m q now del).queue
      (m.chat_id, m.from_user_id) = none ∧
    (∀ (m2 : Message) (now2 : Nat) (del2 : DeleteResult),
      m2.chat_id = m.chat_id → m2.from_user_id = m.from_user_id →
      (handle_queued_message pfx errNotif m2
        (handle_queued_message pfx errNotif m q now del).queue now2
        del2).sent = none) := by
  have hpop1 : (QueueManager.pop q m.from_user_id m.chat_id now).1 = some e := by
    simp [QueueManager.pop, hlive, hexp]
  have hpop2 : (QueueManager.pop q m.from_user_id m.chat_id now).2 =
      dictErase q (m.chat_id, m.from_user_id) := by
    simp [QueueManager.pop, hlive]
  have hqueue : (handle_queued_message pfx errNotif m q now del).queue =
      dictErase q (m.chat_id, m.from_user_id) := by
    simp [handle_queued_message, hnotcmd, hcontent, hpop1, hpop2, hdel]
  have hgone : dictGet (dictErase q (m.chat_id, m.from_user_id))
      (m.chat_id, m.from_user_id) = none :=
    dictGet_dictErase_self hq _
  refine ⟨?_, ?_, ?_⟩
  · simp [handle_queued_message, hnotcmd, hcontent, hpop1, hpop2, hdel]
  · rw [hqueue]
    exact hgone
  · intro m2 now2 del2 hchat huser
    rw [hqueue]
    by_cases hcmd2 : queuedIsAnonCommand pfx m2 = true
    · simp [handle_queued_message, hcmd2]
    · by_cases hcont2 : has_any_content m2 = true
      · have hget2 : dictGet (dictErase q (m.chat_id, m.from_user_id))
            (m2.chat_id, m2.from_user_id) = none := by
          rw [hchat, huser]
          exact hgone
        have hpopa : (QueueManager.pop
            (dictErase q (m.chat_id, m.from_user_id)) m2.from_user_id
            m2.chat_id now2).1 = none := by
          simp [QueueManager.pop, hget2]
        simp [handle_queued_message, hcmd2, hcont2, hpopa]
      · simp [handle_queued_message, hcmd2,
          Bool.not_eq_true _ ▸ hcont2]

/-- A concrete content-bearing follow-up message used by C10's witness. -/
def mC10 : Message := { text := some "bye", chat_id := 1, from_user_id := 2 }

/-- Closed instance of C10's theorem: a forbidden delete after a live pop
leaves the entry consumed and later follow-ups ignored. -/
theorem queued_delete_failure_consumes_entry_witness :
    (QNodup qW ∧ queuedIsAnonCommand "@anon" mC10 = false ∧
      has_any_content mC10 = true ∧
      dictGet qW (mC10.chat_id, mC10.from_user_id) = some ⟨2, 1, 10, none⟩ ∧
      5 < (⟨2, 1, 10, none⟩ : QueueEntry).expires_at ∧
      (delete_original true DeleteResult.forbidden).1 = false) ∧
    ((handle_queued_message "@anon" true mC10 qW 5
        DeleteResult.forbidden).sent = none ∧
      dictGet (handle_queued_message "@anon" true mC10 qW 5
        DeleteResult.forbidden).queue (mC10.chat_id, mC10.from_user_id) =
        none ∧
      (∀ (m2 : Message) (now2 : Nat) (del2 : DeleteResult),
        m2.chat_id = mC10.chat_id → m2.from_user_id = mC10.from_user_id →
        (handle_queued_message "@anon" true m2
          (handle_queued_message "@anon" true mC10 qW 5
            DeleteResult.forbidden).queue now2 del2).sent = none)) :=
  ⟨⟨by decide, by decide, by decide, by decide, by decide, rfl⟩,
    queued_delete_failure_consumes_entry "@anon" true mC10 qW 5
      DeleteResult.forbidden ⟨2, 1, 10, none⟩ (by decide) (by decide)
      (by decide) (by decide) (by decide) rfl⟩

end AnonBot
